import Mathlib

/-!
Shallow embedding of the `vulntoken` pallet (src/pallets/vulntoken/src/lib.rs)
and verification of the specification's claims about it.

Modelling conventions:
- account ids are `Nat`; balances (`BalanceOf<T>`) are `Nat` values of `u128`
  width, with the one overflowing `u128` addition in `do_buy_collectible`
  modelled as an abort (Substrate runtimes build with overflow checks on);
- the `u64` mint counter's `checked_add` is modelled by the explicit bound
  `count + 1 < 2^64`;
- storage items are fields of an explicit `PalletState`; `StorageMap` becomes a
  function to `Option`/`List` (the `ValueQuery` default for `OwnerOfCollectibles`
  is the empty list);
- `deposit_event` appends to a ghost `events` log, and every invocation of the
  external `Currency::transfer` is appended to a ghost `ledgerCalls` log
  (payer, payee, amount) whether or not it succeeds; the external ledger itself
  is an oracle parameter `ledger : Nat → Nat → Nat → Bool`;
- a dispatch that panics in Rust (`unwrap()` on a missing key, overflowing
  arithmetic) is the `panicked` outcome; a dispatch error carries the storage
  state at the point of the error so that no-mutation claims are statable.
-/

set_option maxHeartbeats 1000000

namespace VulnToken

/-- Colors of a collectible, from the pallet's `Color` enum. -/
inductive Color where
  | Red
  | Yellow
  | Blue
  | Green
deriving DecidableEq

/-- A collectible record, from the pallet's `Collectible` struct. -/
structure Collectible where
  unique_id : Nat
  price : Option Nat
  color : Color
  owner : Nat
deriving DecidableEq

/-- The pallet's `Error<T>` enum. -/
inductive PalletError where
  | DuplicateCollectible
  | MaximumCollectiblesOwned
  | BoundsOverflow
  | NoCollectible
  | NotOwner
  | TransferToSelf
  | BidPriceTooLow
  | NotForSale
deriving DecidableEq

/-- A dispatch error: one of the pallet's own errors, or an error propagated
from the external Currency collaborator (`other`). -/
inductive DispatchError where
  | module (e : PalletError)
  | other
deriving DecidableEq

/-- Events deposited by the pallet. -/
inductive Event where
  | CollectibleCreated (collectible : Nat) (owner : Nat)
  | TransferSucceeded (sender : Nat) (toAcct : Nat) (collectible : Nat)
  | PriceSet (collectible : Nat) (price : Option Nat)
  | Sold (seller : Nat) (buyer : Nat) (collectible : Nat) (price : Nat)
deriving DecidableEq

/-- The pallet's storage (`CollectiblesCount`, `HighestPrice`, `CollectibleMap`,
`OwnerOfCollectibles`) together with the ghost event and ledger-call logs. -/
structure PalletState where
  collectiblesCount : Nat
  highestPrice : Nat
  collectibleMap : Nat → Option Collectible
  ownerOf : Nat → List Nat
  events : List Event
  ledgerCalls : List (Nat × Nat × Nat)

/-- The outcome of one dispatchable: success with the new state, a dispatch
error carrying the storage state at the point of the error, or a panic. -/
inductive OpResult where
  | ok : PalletState → OpResult
  | err : DispatchError → PalletState → OpResult
  | panicked : OpResult

/-- The genesis state: empty storage, zero counters. -/
def initialState : PalletState :=
  { collectiblesCount := 0
    highestPrice := 0
    collectibleMap := fun _ => none
    ownerOf := fun _ => []
    events := []
    ledgerCalls := [] }

/-- Whether a dispatch succeeded. -/
def OpResult.isOk : OpResult → Bool
  | .ok _ => true
  | _ => false

/-- The state an outcome leaves behind (for a panic, which destroys the
process, an arbitrary default). -/
def OpResult.state : OpResult → PalletState
  | .ok s => s
  | .err _ s => s
  | .panicked => initialState

/-- `CollectibleMap::insert`. -/
def mapInsert (m : Nat → Option Collectible) (k : Nat) (v : Collectible) :
    Nat → Option Collectible :=
  fun i => if i = k then some v else m i

/-- `CollectibleMap::remove`. -/
def mapRemove (m : Nat → Option Collectible) (k : Nat) :
    Nat → Option Collectible :=
  fun i => if i = k then none else m i

/-- `OwnerOfCollectibles::insert`. -/
def ownedSet (f : Nat → List Nat) (k : Nat) (v : List Nat) : Nat → List Nat :=
  fun i => if i = k then v else f i

/-- `iter().position(|&id| id == x)`: index of the first occurrence of `x`. -/
def position (x : Nat) : List Nat → Option Nat
  | [] => none
  | y :: ys => if y = x then some 0 else (position x ys).map (· + 1)

/-- `Vec::swap_remove(i)`: overwrite index `i` with the last element, then drop
the last element. -/
def swapRemove (l : List Nat) (i : Nat) : List Nat :=
  (l.set i (l.getLastD 0)).dropLast

/-- `mint`: create the record, reject duplicates, advance the counter with a
checked add, `try_append` to the owner's bounded vec (capacity `M`), then write
the record and the counter and deposit `CollectibleCreated`. -/
def mint (M : Nat) (owner : Nat) (unique_id : Nat) (color : Color)
    (s : PalletState) : OpResult :=
  if (s.collectibleMap unique_id).isSome then
    .err (.module .DuplicateCollectible) s
  else if s.collectiblesCount + 1 < 2 ^ 64 then
    if (s.ownerOf owner).length < M then
      .ok { s with
        ownerOf := ownedSet s.ownerOf owner (s.ownerOf owner ++ [unique_id])
        collectibleMap := mapInsert s.collectibleMap unique_id
            { unique_id := unique_id, price := none, color := color,
              owner := owner }
        collectiblesCount := s.collectiblesCount + 1
        events := s.events ++ [.CollectibleCreated unique_id owner] }
    else
      .err (.module .MaximumCollectiblesOwned) s
  else
    .err (.module .BoundsOverflow) s

/-- `gen_unique_id`: the current counter, with color chosen by its parity. -/
def gen_unique_id (s : PalletState) : Nat × Color :=
  if s.collectiblesCount % 2 = 0 then (s.collectiblesCount, .Red)
  else (s.collectiblesCount, .Yellow)

/-- `create_collectible`: generate an id and color and mint. -/
def create_collectible (M : Nat) (toAcct : Nat) (s : PalletState) : OpResult :=
  mint M toAcct (gen_unique_id s).1 (gen_unique_id s).2 s

/-- `do_transfer`: look the record up, reject self-transfer, swap-remove the id
from the sender's owned list, `try_push` it onto the recipient's, then commit
the new record (owner updated, price reset) and both lists and deposit
`TransferSucceeded`. -/
def do_transfer (M : Nat) (collectible_id : Nat) (toAcct : Nat)
    (s : PalletState) : OpResult :=
  match s.collectibleMap collectible_id with
  | none => .err (.module .NoCollectible) s
  | some collectible =>
    if collectible.owner = toAcct then .err (.module .TransferToSelf) s
    else
      match position collectible_id (s.ownerOf collectible.owner) with
      | none => .err (.module .NoCollectible) s
      | some ind =>
        if (s.ownerOf toAcct).length < M then
          .ok { s with
            collectibleMap := mapInsert s.collectibleMap collectible_id
                { collectible with owner := toAcct, price := none }
            ownerOf := ownedSet
                (ownedSet s.ownerOf toAcct (s.ownerOf toAcct ++ [collectible_id]))
                collectible.owner
                (swapRemove (s.ownerOf collectible.owner) ind)
            events := s.events ++
                [.TransferSucceeded collectible.owner toAcct collectible_id] }
        else
          .err (.module .MaximumCollectiblesOwned) s

/-- The `transfer` extrinsic: the record must exist and the signer must be its
owner, then `do_transfer`. -/
def transfer (M : Nat) (sender : Nat) (toAcct : Nat) (unique_id : Nat)
    (s : PalletState) : OpResult :=
  match s.collectibleMap unique_id with
  | none => .err (.module .NoCollectible) s
  | some collectible =>
    if collectible.owner = sender then do_transfer M unique_id toAcct s
    else .err (.module .NotOwner) s

/-- The `burn` extrinsic: the record must exist and the signer must be its
owner; removes the record from `CollectibleMap` and nothing else. -/
def burn (sender : Nat) (unique_id : Nat) (s : PalletState) : OpResult :=
  match s.collectibleMap unique_id with
  | none => .err (.module .NoCollectible) s
  | some collectible =>
    if collectible.owner = sender then
      .ok { s with collectibleMap := mapRemove s.collectibleMap unique_id }
    else .err (.module .NotOwner) s

/-- The `set_price` extrinsic: `CollectibleMap::get(..).unwrap()` — a missing
id panics; otherwise the caller-asserted owner must match, the price is
written and `PriceSet` deposited. -/
def set_price (owner : Nat) (unique_id : Nat) (new_price : Option Nat)
    (s : PalletState) : OpResult :=
  match s.collectibleMap unique_id with
  | none => .panicked
  | some collectible =>
    if collectible.owner = owner then
      .ok { s with
        collectibleMap := mapInsert s.collectibleMap unique_id
            { collectible with price := new_price }
        events := s.events ++ [.PriceSet unique_id new_price] }
    else .err (.module .NotOwner) s

/-- `do_buy_collectible`: look the record up, reject buying one's own
collectible, swap-remove from the seller's list, `try_push` onto the buyer's,
then — only if a price is set — compute `extra_fee + price` (aborts on `u128`
overflow), invoke the external Currency transfer from buyer to seller, and on
its success deposit `Sold`, commit the record (owner := buyer, price := none)
and both lists, and deposit `TransferSucceeded`. -/
def do_buy_collectible (M : Nat) (ledger : Nat → Nat → Nat → Bool)
    (unique_id : Nat) (toAcct : Nat) (extra_fee : Nat)
    (s : PalletState) : OpResult :=
  match s.collectibleMap unique_id with
  | none => .err (.module .NoCollectible) s
  | some collectible =>
    if collectible.owner = toAcct then .err (.module .TransferToSelf) s
    else
      match position unique_id (s.ownerOf collectible.owner) with
      | none => .err (.module .NoCollectible) s
      | some ind =>
        if (s.ownerOf toAcct).length < M then
          match collectible.price with
          | some price =>
            if extra_fee + price < 2 ^ 128 then
              if ledger toAcct collectible.owner (extra_fee + price) then
                .ok { s with
                  ledgerCalls := s.ledgerCalls ++
                      [(toAcct, collectible.owner, extra_fee + price)]
                  events := s.events ++
                      [.Sold collectible.owner toAcct unique_id
                          (extra_fee + price),
                        .TransferSucceeded collectible.owner toAcct unique_id]
                  collectibleMap := mapInsert s.collectibleMap unique_id
                      { collectible with owner := toAcct, price := none }
                  ownerOf := ownedSet
                      (ownedSet s.ownerOf toAcct (s.ownerOf toAcct ++ [unique_id]))
                      collectible.owner
                      (swapRemove (s.ownerOf collectible.owner) ind) }
              else
                .err .other { s with
                  ledgerCalls := s.ledgerCalls ++
                      [(toAcct, collectible.owner, extra_fee + price)] }
            else .panicked
          | none => .err (.module .NotForSale) s
        else
          .err (.module .MaximumCollectiblesOwned) s

/-- One step of the `on_initialize` scan: `if collectible.price > Some(acc)`
(so an absent price never updates the accumulator). -/
def scanStep (acc : Nat) (price : Option Nat) : Nat :=
  match price with
  | some p => if acc < p then p else acc
  | none => acc

/-- The `on_initialize` loop from index `i` for `r` more iterations: each
iteration `unwrap`s the record at the current index — a missing id aborts the
whole scan (`none`). -/
def scanFrom (m : Nat → Option Collectible) : Nat → Nat → Nat → Option Nat
  | acc, _, 0 => some acc
  | acc, i, r + 1 =>
    match m i with
    | none => none
    | some c => scanFrom m (scanStep acc c.price) (i + 1) r

/-- The `on_initialize` hook: seed the accumulator with the stored
`HighestPrice`, scan ids `0..CollectiblesCount`, and store the result. -/
def recomputeHighestPrice (s : PalletState) : Option PalletState :=
  match scanFrom s.collectibleMap s.highestPrice 0 s.collectiblesCount with
  | none => none
  | some mp => some { s with highestPrice := mp }

/-- Modelled from the spec: the maximum over all currently-listed (price
present) records among ids `i..i+r-1`, an absent price or missing record
contributing no value (zero). -/
def listedMaxFrom (m : Nat → Option Collectible) : Nat → Nat → Nat
  | _, 0 => 0
  | i, r + 1 =>
    max (match m i with
          | some c => c.price.getD 0
          | none => 0)
      (listedMaxFrom m (i + 1) r)

/-- Modelled from the spec: the maximum over all currently-listed prices of
ids below the mint counter. -/
def listedMax (s : PalletState) : Nat :=
  listedMaxFrom s.collectibleMap 0 s.collectiblesCount

/-- Concrete state: account 0 owns ids 0 and 1, counter 2 — at capacity for
a bound of two. -/
def exC3 : PalletState :=
  { collectiblesCount := 2
    highestPrice := 0
    collectibleMap := fun i =>
      if i = 0 then some ⟨0, none, .Red, 0⟩
      else if i = 1 then some ⟨1, none, .Yellow, 0⟩
      else none
    ownerOf := fun a => if a = 0 then [0, 1] else []
    events := []
    ledgerCalls := [] }

/-- Concrete state: account 7 owns id 0, listed at price 3, counter 1. -/
def exC9 : PalletState :=
  { collectiblesCount := 1
    highestPrice := 3
    collectibleMap := fun i => if i = 0 then some ⟨0, some 3, .Red, 7⟩ else none
    ownerOf := fun a => if a = 7 then [0] else []
    events := []
    ledgerCalls := [] }

/-- Concrete state: counter 1 but an empty registry — id 0 has been burned. -/
def exC5 : PalletState :=
  { initialState with collectiblesCount := 1 }

/-- Concrete state: account 0 owns id 0, listed at price 100, counter 1. -/
def exC1 : PalletState :=
  { collectiblesCount := 1
    highestPrice := 0
    collectibleMap := fun i => if i = 0 then some ⟨0, some 100, .Red, 0⟩ else none
    ownerOf := fun a => if a = 0 then [0] else []
    events := []
    ledgerCalls := [] }

/-- Concrete state: account 0 owns id 0, unlisted (price absent), counter 1. -/
def exC2 : PalletState :=
  { collectiblesCount := 1
    highestPrice := 0
    collectibleMap := fun i => if i = 0 then some ⟨0, none, .Red, 0⟩ else none
    ownerOf := fun a => if a = 0 then [0] else []
    events := []
    ledgerCalls := [] }

/-- Concrete state: account 0 owns the unlisted id 0 and account 1 owns id 1,
so under capacity 1 account 1's collection is full. -/
def exC2x : PalletState :=
  { collectiblesCount := 2
    highestPrice := 0
    collectibleMap := fun i =>
      if i = 0 then some ⟨0, none, .Red, 0⟩
      else if i = 1 then some ⟨1, none, .Yellow, 1⟩
      else none
    ownerOf := fun a => if a = 0 then [0] else if a = 1 then [1] else []
    events := []
    ledgerCalls := [] }

/-- Concrete state: account 0 owns id 0, listed at price 5, counter 1. -/
def exC7 : PalletState :=
  { collectiblesCount := 1
    highestPrice := 0
    collectibleMap := fun i => if i = 0 then some ⟨0, some 5, .Red, 0⟩ else none
    ownerOf := fun a => if a = 0 then [0] else []
    events := []
    ledgerCalls := [] }

/-- Concrete state: account 3 owns id 0, counter 1. -/
def exC8 : PalletState :=
  { collectiblesCount := 1
    highestPrice := 0
    collectibleMap := fun i => if i = 0 then some ⟨0, none, .Red, 3⟩ else none
    ownerOf := fun a => if a = 3 then [0] else []
    events := []
    ledgerCalls := [] }

/-- Concrete state for the aggregate recompute: one record listed at 50 while
the stored aggregate is still 100. -/
def exC4 : PalletState :=
  { collectiblesCount := 1
    highestPrice := 100
    collectibleMap := fun i => if i = 0 then some ⟨0, some 50, .Red, 0⟩ else none
    ownerOf := fun a => if a = 0 then [0] else []
    events := []
    ledgerCalls := [] }

/-- A mint or burn operation, for stating properties over all sequences of
mint and burn operations. -/
inductive MBOp where
  | createOp (toAcct : Nat)
  | burnOp (caller : Nat) (unique_id : Nat)

/-- Apply one mint-or-burn operation: `createOp` dispatches
`create_collectible` and reports the id it assigned when the mint succeeds;
any failed dispatch keeps the state the error carries. -/
def applyMB (M : Nat) (s : PalletState) : MBOp → PalletState × Option Nat
  | .createOp toAcct =>
    match create_collectible M toAcct s with
    | .ok s' => (s', some (gen_unique_id s).1)
    | .err _ s' => (s', none)
    | .panicked => (s, none)
  | .burnOp caller unique_id =>
    match burn caller unique_id s with
    | .ok s' => (s', none)
    | .err _ s' => (s', none)
    | .panicked => (s, none)

/-- Run a sequence of mint/burn operations, collecting the assigned ids in
order. -/
def runMB (M : Nat) (s : PalletState) : List MBOp → PalletState × List Nat
  | [] => (s, [])
  | op :: ops =>
    ((runMB M (applyMB M s op).1 ops).1,
      (applyMB M s op).2.toList ++ (runMB M (applyMB M s op).1 ops).2)

end VulnToken

namespace VulnToken

theorem ownedSet_same (f : Nat → List Nat) (k : Nat) (v : List Nat) :
    ownedSet f k v k = v := by
  simp [ownedSet]

theorem ownedSet_other (f : Nat → List Nat) (k : Nat) (v : List Nat)
    (i : Nat) (h : i ≠ k) : ownedSet f k v i = f i := by
  simp [ownedSet, h]

theorem mapInsert_same (m : Nat → Option Collectible) (k : Nat)
    (v : Collectible) : mapInsert m k v k = some v := by
  simp [mapInsert]

theorem position_isSome_of_mem {x : Nat} :
    ∀ {l : List Nat}, x ∈ l → (position x l).isSome = true
  | y :: ys, h => by
    by_cases hyx : y = x
    · simp [position, hyx]
    · have hx : x ∈ ys := by
        rcases List.mem_cons.mp h with h1 | h2
        · exact absurd h1.symm hyx
        · exact h2
      have hsome := position_isSome_of_mem hx
      cases hp : position x ys with
      | none => rw [hp] at hsome; simp at hsome
      | some j => simp [position, if_neg hyx, hp]

theorem getLastD_ne_nil {l : List Nat} (h : l ≠ []) (d d' : Nat) :
    l.getLastD d = l.getLastD d' := by
  cases l with
  | nil => exact absurd rfl h
  | cons a as =>
    rw [List.getLastD_eq_getLast?, List.getLastD_eq_getLast?]
    simp [List.getLast?_eq_getLast _ h]

theorem swapRemove_cons_succ (y : Nat) (ys : List Nat) (j : Nat)
    (hys : ys ≠ []) :
    swapRemove (y :: ys) (j + 1) = y :: swapRemove ys j := by
  unfold swapRemove
  have h1 : (y :: ys).set (j + 1) ((y :: ys).getLastD 0)
      = y :: ys.set j ((y :: ys).getLastD 0) := rfl
  rw [h1]
  have h2 : (y :: ys).getLastD 0 = ys.getLastD 0 := by
    rw [List.getLastD_cons]
    exact getLastD_ne_nil hys y 0
  rw [h2]
  cases hset : ys.set j (ys.getLastD 0) with
  | nil =>
    exfalso
    have hlen := congrArg List.length hset
    simp only [List.length_set, List.length_nil] at hlen
    exact hys (List.length_eq_zero.mp hlen)
  | cons b bs => rfl

theorem count_swapRemove (x : Nat) :
    ∀ (l : List Nat) (i : Nat), position x l = some i →
      (swapRemove l i).count x + 1 = l.count x
  | [], i, h => by simp [position] at h
  | y :: ys, i, h => by
    by_cases hyx : y = x
    · subst hyx
      have hi : i = 0 := by
        simp [position] at h
        omega
      subst hi
      cases ys with
      | nil => simp [swapRemove]
      | cons a as =>
        have hne : (a :: as) ≠ ([] : List Nat) := List.cons_ne_nil a as
        have hg : (y :: a :: as).getLastD 0 = (a :: as).getLast hne := by
          rw [List.getLastD_cons, List.getLastD_eq_getLast?,
            List.getLast?_eq_getLast _ hne, Option.getD_some]
        have hsw : swapRemove (y :: a :: as) 0
            = (a :: as).getLast hne :: (a :: as).dropLast := by
          unfold swapRemove
          rw [hg]
          rfl
        rw [hsw]
        have hsplit : (a :: as).dropLast ++ [(a :: as).getLast hne] = a :: as :=
          List.dropLast_append_getLast hne
        have hcount : (a :: as).count y
            = (a :: as).dropLast.count y
              + (if (a :: as).getLast hne = y then 1 else 0) := by
          conv_lhs => rw [← hsplit]
          simp [List.count_append, List.count_singleton']
        simp [List.count_cons, hcount]
    · have hj : ∃ j, position x ys = some j ∧ i = j + 1 := by
        simp only [position, if_neg hyx, Option.map_eq_some'] at h
        rcases h with ⟨j, hj1, hj2⟩
        exact ⟨j, hj1, hj2.symm⟩
      rcases hj with ⟨j, hpos, hi⟩
      subst hi
      have hys : ys ≠ [] := by
        intro hnil
        rw [hnil] at hpos
        simp [position] at hpos
      rw [swapRemove_cons_succ y ys j hys]
      have := count_swapRemove x ys j hpos
      simp [List.count_cons, hyx]
      omega

theorem scanFrom_eq_max (m : Nat → Option Collectible) :
    ∀ (r i acc : Nat), (∀ j, j < r → (m (i + j)).isSome = true) →
      scanFrom m acc i r = some (max acc (listedMaxFrom m i r))
  | 0, i, acc, _ => by simp [scanFrom, listedMaxFrom]
  | r + 1, i, acc, h => by
    have h0 : (m i).isSome = true := by
      have := h 0 (Nat.succ_pos r)
      simpa using this
    rcases Option.isSome_iff_exists.mp h0 with ⟨c, hc⟩
    have hrest : ∀ j, j < r → (m (i + 1 + j)).isSome = true := by
      intro j hjr
      have := h (j + 1) (Nat.succ_lt_succ hjr)
      have harith : i + (j + 1) = i + 1 + j := by omega
      rwa [harith] at this
    have hstep : scanStep acc c.price = max acc (c.price.getD 0) := by
      cases hp : c.price with
      | none => simp [scanStep]
      | some p =>
        simp only [scanStep, Option.getD_some]
        rcases Nat.lt_or_ge acc p with hlt | hge
        · rw [if_pos hlt, Nat.max_eq_right (Nat.le_of_lt hlt)]
        · rw [if_neg (Nat.not_lt.mpr hge), Nat.max_eq_left hge]
    calc scanFrom m acc i (r + 1)
        = scanFrom m (scanStep acc c.price) (i + 1) r := by
          simp [scanFrom, hc]
      _ = some (max (scanStep acc c.price) (listedMaxFrom m (i + 1) r)) :=
          scanFrom_eq_max m r (i + 1) (scanStep acc c.price) hrest
      _ = some (max acc (listedMaxFrom m i (r + 1))) := by
          rw [hstep]
          simp [listedMaxFrom, hc, Nat.max_assoc]

/-- C3: when appending the freshly minted id to the recipient's ownership
collection would exceed capacity `M` (the id being new and the counter able to
advance), the whole mint fails with `MaximumCollectiblesOwned` and the state
is unchanged: the new id stays absent from the registry and the counter keeps
its value. -/
theorem mint_capacity_atomic (M owner unique_id : Nat) (color : Color)
    (s : PalletState)
    (hfresh : s.collectibleMap unique_id = none)
    (hcount : s.collectiblesCount + 1 < 2 ^ 64)
    (hcap : M ≤ (s.ownerOf owner).length) :
    mint M owner unique_id color s
        = .err (.module .MaximumCollectiblesOwned) s ∧
    (mint M owner unique_id color s).state.collectibleMap unique_id = none ∧
    (mint M owner unique_id color s).state.collectiblesCount
        = s.collectiblesCount := by
  have hmain : mint M owner unique_id color s
      = .err (.module .MaximumCollectiblesOwned) s := by
    unfold mint
    simp only [hfresh, Option.isSome_none, Bool.false_eq_true, if_false,
      if_pos hcount, if_neg (Nat.not_lt.mpr hcap)]
  refine ⟨hmain, ?_, ?_⟩ <;> rw [hmain]
  · exact hfresh
  · rfl

/-- C3 witness: with capacity 2 and account 0 already owning two collectibles,
minting id 2 to account 0 fails with `MaximumCollectiblesOwned` and leaves the
state untouched. -/
theorem mint_capacity_atomic_witness :
    (exC3.collectibleMap 2 = none ∧ exC3.collectiblesCount + 1 < 2 ^ 64 ∧
      2 ≤ (exC3.ownerOf 0).length) ∧
    mint 2 0 2 .Red exC3 = .err (.module .MaximumCollectiblesOwned) exC3 :=
  ⟨⟨rfl, by decide, by decide⟩,
    (mint_capacity_atomic 2 0 2 .Red exC3 rfl (by decide) (by decide)).1⟩

/-- C9: burning an owned collectible removes only its registry record: the id
stays in the caller's ownership collection, and the counter, the stored
highest price, every ownership collection and every other registry entry are
untouched. -/
theorem burn_removes_only_registry (sender unique_id : Nat) (c : Collectible)
    (s : PalletState)
    (hrec : s.collectibleMap unique_id = some c)
    (hown : c.owner = sender) :
    (burn sender unique_id s).isOk = true ∧
    (burn sender unique_id s).state.collectibleMap unique_id = none ∧
    (∀ k, k ≠ unique_id →
      (burn sender unique_id s).state.collectibleMap k
        = s.collectibleMap k) ∧
    (∀ a, (burn sender unique_id s).state.ownerOf a = s.ownerOf a) ∧
    (burn sender unique_id s).state.collectiblesCount
        = s.collectiblesCount ∧
    (burn sender unique_id s).state.highestPrice = s.highestPrice ∧
    (unique_id ∈ s.ownerOf sender →
      unique_id ∈ (burn sender unique_id s).state.ownerOf sender) := by
  have hb : burn sender unique_id s
      = .ok { s with collectibleMap := mapRemove s.collectibleMap unique_id } := by
    unfold burn
    rw [hrec]
    simp [hown]
  rw [hb]
  refine ⟨rfl, ?_, ?_, fun a => rfl, rfl, rfl, fun h => h⟩
  · simp [OpResult.state, mapRemove]
  · intro k hk
    simp [OpResult.state, mapRemove, hk]

/-- C9 witness: burning id 0 owned by account 7 succeeds, removes the record,
and leaves the ownership collection of account 7 (still holding id 0), the
counter and the stored highest price unchanged. -/
theorem burn_removes_only_registry_witness :
    (exC9.collectibleMap 0 = some ⟨0, some 3, .Red, 7⟩ ∧
      (⟨0, some 3, .Red, 7⟩ : Collectible).owner = 7) ∧
    ((burn 7 0 exC9).isOk = true ∧
      (burn 7 0 exC9).state.collectibleMap 0 = none) :=
  ⟨⟨rfl, rfl⟩,
    ⟨(burn_removes_only_registry 7 0 ⟨0, some 3, .Red, 7⟩ exC9 rfl rfl).1,
      (burn_removes_only_registry 7 0 ⟨0, some 3, .Red, 7⟩ exC9 rfl rfl).2.1⟩⟩

/-- C10: calling `set_price` on an id that is absent from the registry panics
(the unwrapped lookup) instead of returning a recoverable error, and any
non-panic outcome implies the record exists, so the `NotOwner` check and all
later behavior are only reachable when the record exists. -/
theorem set_price_missing_id_panics (owner unique_id : Nat)
    (new_price : Option Nat) (s : PalletState) :
    (s.collectibleMap unique_id = none →
      set_price owner unique_id new_price s = .panicked) ∧
    (set_price owner unique_id new_price s ≠ .panicked →
      (s.collectibleMap unique_id).isSome = true) := by
  constructor
  · intro h
    unfold set_price
    rw [h]
  · intro h
    cases hm : s.collectibleMap unique_id with
    | none =>
      exfalso
      apply h
      unfold set_price
      rw [hm]
    | some c => rfl

/-- C10 witness: `set_price` on id 5 in the genesis state (empty registry)
panics. -/
theorem set_price_missing_id_panics_witness :
    (initialState.collectibleMap 5 = none) ∧
    set_price 0 5 (some 3) initialState = .panicked :=
  ⟨rfl, (set_price_missing_id_panics 0 5 (some 3) initialState).1 rfl⟩

/-- C5: from a state whose counter covers a burned id (counter 1, empty
registry), the aggregate recompute aborts — the scan unwraps the missing
record instead of skipping it, contradicting the spec's requirement that the
scan tolerate burned ids. -/
theorem recompute_aborts_on_burned_id :
    recomputeHighestPrice exC5 = none := rfl

theorem do_transfer_err_frame (M collectible_id toAcct : Nat)
    (s : PalletState) (e : DispatchError) (s' : PalletState)
    (h : do_transfer M collectible_id toAcct s = .err e s') : s' = s := by
  unfold do_transfer at h
  split at h
  · injection h with h1 h2; exact h2.symm
  · split at h
    · injection h with h1 h2; exact h2.symm
    · split at h
      · injection h with h1 h2; exact h2.symm
      · split at h
        · cases h
        · injection h with h1 h2; exact h2.symm

theorem do_transfer_ok_inv (M collectible_id toAcct : Nat)
    (s s' : PalletState)
    (h : do_transfer M collectible_id toAcct s = .ok s') :
    ∃ c ind,
      s.collectibleMap collectible_id = some c ∧ ¬c.owner = toAcct ∧
      position collectible_id (s.ownerOf c.owner) = some ind ∧
      (s.ownerOf toAcct).length < M ∧
      s' = { s with
        collectibleMap := mapInsert s.collectibleMap collectible_id
            { c with owner := toAcct, price := none }
        ownerOf := ownedSet
            (ownedSet s.ownerOf toAcct (s.ownerOf toAcct ++ [collectible_id]))
            c.owner (swapRemove (s.ownerOf c.owner) ind)
        events := s.events ++
            [.TransferSucceeded c.owner toAcct collectible_id] } := by
  unfold do_transfer at h
  split at h
  · cases h
  · rename_i c hc
    split at h
    · cases h
    · rename_i hne
      split at h
      · cases h
      · rename_i ind hind
        split at h
        · rename_i hlen
          injection h with h1
          exact ⟨c, ind, hc, hne, hind, hlen, h1.symm⟩
        · cases h

theorem do_buy_err_frame (M : Nat) (ledger : Nat → Nat → Nat → Bool)
    (unique_id toAcct extra_fee : Nat) (s : PalletState)
    (e : DispatchError) (s' : PalletState)
    (h : do_buy_collectible M ledger unique_id toAcct extra_fee s
      = .err e s') :
    s'.collectibleMap = s.collectibleMap ∧ s'.ownerOf = s.ownerOf ∧
    s'.collectiblesCount = s.collectiblesCount ∧
    s'.highestPrice = s.highestPrice := by
  unfold do_buy_collectible at h
  split at h
  · injection h with h1 h2; rw [← h2]; exact ⟨rfl, rfl, rfl, rfl⟩
  · split at h
    · injection h with h1 h2; rw [← h2]; exact ⟨rfl, rfl, rfl, rfl⟩
    · split at h
      · injection h with h1 h2; rw [← h2]; exact ⟨rfl, rfl, rfl, rfl⟩
      · split at h
        · split at h
          · split at h
            · split at h
              · cases h
              · injection h with h1 h2; rw [← h2]
                exact ⟨rfl, rfl, rfl, rfl⟩
            · cases h
          · injection h with h1 h2; rw [← h2]; exact ⟨rfl, rfl, rfl, rfl⟩
        · injection h with h1 h2; rw [← h2]; exact ⟨rfl, rfl, rfl, rfl⟩

theorem do_buy_ok_inv (M : Nat) (ledger : Nat → Nat → Nat → Bool)
    (unique_id toAcct extra_fee : Nat) (s s' : PalletState)
    (h : do_buy_collectible M ledger unique_id toAcct extra_fee s = .ok s') :
    ∃ c ind price,
      s.collectibleMap unique_id = some c ∧ ¬c.owner = toAcct ∧
      position unique_id (s.ownerOf c.owner) = some ind ∧
      (s.ownerOf toAcct).length < M ∧ c.price = some price ∧
      extra_fee + price < 2 ^ 128 ∧
      ledger toAcct c.owner (extra_fee + price) = true ∧
      s' = { s with
        ledgerCalls := s.ledgerCalls ++
            [(toAcct, c.owner, extra_fee + price)]
        events := s.events ++
            [.Sold c.owner toAcct unique_id (extra_fee + price),
              .TransferSucceeded c.owner toAcct unique_id]
        collectibleMap := mapInsert s.collectibleMap unique_id
            { c with owner := toAcct, price := none }
        ownerOf := ownedSet
            (ownedSet s.ownerOf toAcct (s.ownerOf toAcct ++ [unique_id]))
            c.owner (swapRemove (s.ownerOf c.owner) ind) } := by
  unfold do_buy_collectible at h
  split at h
  · cases h
  · rename_i c hc
    split at h
    · cases h
    · rename_i hne
      split at h
      · cases h
      · rename_i ind hind
        split at h
        · rename_i hlen
          split at h
          · rename_i price hprice
            split at h
            · rename_i hov
              split at h
              · rename_i hled
                injection h with h1
                exact ⟨c, ind, price, hc, hne, hind, hlen, hprice, hov,
                  hled, h1.symm⟩
              · cases h
            · cases h
          · cases h
        · cases h

/-- C8: `transfer` fails `NotOwner` when the sender is not the record's
current owner, `TransferToSelf` when the destination equals the (owning)
sender, `NoCollectible` when the id is absent from the registry, and every
dispatch error leaves the state completely unchanged. -/
theorem transfer_failure_cases (M sender toAcct unique_id : Nat)
    (s : PalletState) :
    (∀ c, s.collectibleMap unique_id = some c → c.owner ≠ sender →
      transfer M sender toAcct unique_id s = .err (.module .NotOwner) s) ∧
    (∀ c, s.collectibleMap unique_id = some c → c.owner = sender →
      toAcct = sender →
      transfer M sender toAcct unique_id s
        = .err (.module .TransferToSelf) s) ∧
    (s.collectibleMap unique_id = none →
      transfer M sender toAcct unique_id s
        = .err (.module .NoCollectible) s) ∧
    (∀ e s', transfer M sender toAcct unique_id s = .err e s' → s' = s) := by
  refine ⟨?_, ?_, ?_, ?_⟩
  · intro c hc hno
    unfold transfer
    rw [hc]
    simp [hno]
  · intro c hc hown hts
    unfold transfer do_transfer
    rw [hc]
    simp [hown, hts]
  · intro h
    unfold transfer
    rw [h]
  · intro e s' h
    unfold transfer at h
    split at h
    · injection h with h1 h2; exact h2.symm
    · split at h
      · exact do_transfer_err_frame M unique_id toAcct s e s' h
      · injection h with h1 h2; exact h2.symm

/-- C8 witness: in a state where account 3 owns id 0, a transfer signed by
account 4 fails `NotOwner` and returns the state unchanged. -/
theorem transfer_failure_cases_witness :
    (exC8.collectibleMap 0 = some ⟨0, none, .Red, 3⟩ ∧
      (⟨0, none, .Red, 3⟩ : Collectible).owner ≠ 4) ∧
    transfer 2 4 5 0 exC8 = .err (.module .NotOwner) exC8 :=
  ⟨⟨rfl, by decide⟩,
    (transfer_failure_cases 2 4 5 0 exC8).1 ⟨0, none, .Red, 3⟩ rfl (by decide)⟩

/-- C2 (amended): `do_buy_collectible` fails `NoCollectible` when the id is
absent; fails `TransferToSelf` when the buyer already owns the record; fails
`NotForSale` when the price is absent, provided the buyer is not the owner,
the id is present in the owner's collection and the buyer's collection is
below capacity; fails whenever the Currency transfer fails; and every
dispatch error leaves registry, ownership index, counter and aggregate
unchanged. -/
theorem buy_failure_cases (M : Nat) (ledger : Nat → Nat → Nat → Bool)
    (unique_id buyer extra_fee : Nat) (s : PalletState) :
    (s.collectibleMap unique_id = none →
      do_buy_collectible M ledger unique_id buyer extra_fee s
        = .err (.module .NoCollectible) s) ∧
    (∀ c, s.collectibleMap unique_id = some c → c.owner = buyer →
      do_buy_collectible M ledger unique_id buyer extra_fee s
        = .err (.module .TransferToSelf) s) ∧
    (∀ c, s.collectibleMap unique_id = some c → c.price = none →
      c.owner ≠ buyer → unique_id ∈ s.ownerOf c.owner →
      (s.ownerOf buyer).length < M →
      do_buy_collectible M ledger unique_id buyer extra_fee s
        = .err (.module .NotForSale) s) ∧
    (∀ c p, s.collectibleMap unique_id = some c → c.price = some p →
      ledger buyer c.owner (extra_fee + p) = false →
      (do_buy_collectible M ledger unique_id buyer extra_fee s).isOk
        = false) ∧
    (∀ e s', do_buy_collectible M ledger unique_id buyer extra_fee s
        = .err e s' →
      s'.collectibleMap = s.collectibleMap ∧ s'.ownerOf = s.ownerOf ∧
      s'.collectiblesCount = s.collectiblesCount ∧
      s'.highestPrice = s.highestPrice) := by
  refine ⟨?_, ?_, ?_, ?_, ?_⟩
  · intro h
    unfold do_buy_collectible
    rw [h]
  · intro c hc hown
    unfold do_buy_collectible
    rw [hc]
    simp [hown]
  · intro c hc hprice hne hmem hlen
    rcases Option.isSome_iff_exists.mp (position_isSome_of_mem hmem)
      with ⟨ind, hind⟩
    unfold do_buy_collectible
    rw [hc]
    simp [hne, hind, hlen, hprice]
  · intro c p hc hp hled
    cases hres : do_buy_collectible M ledger unique_id buyer extra_fee s with
    | ok s' =>
      exfalso
      rcases do_buy_ok_inv M ledger unique_id buyer extra_fee s s' hres
        with ⟨c2, ind, price, hc2, _, _, _, hprice2, _, hled2, _⟩
      rw [hc] at hc2
      injection hc2 with hcc
      subst hcc
      rw [hp] at hprice2
      injection hprice2 with hpp
      subst hpp
      rw [hled] at hled2
      cases hled2
    | err e s' => rfl
    | panicked => rfl
  · intro e s' h
    exact do_buy_err_frame M ledger unique_id buyer extra_fee s e s' h

/-- C2 counterexample: the claim as stated requires `NotForSale` whenever the
record's price is absent, but in a state where the buyer's collection is at
capacity the purchase of an unlisted collectible fails with
`MaximumCollectiblesOwned` instead — the capacity check precedes the
for-sale check. -/
theorem buy_failure_cases_counterexample :
    ((exC2x.collectibleMap 0).map Collectible.price = some none) ∧
    ((exC2x.collectibleMap 0).map Collectible.owner = some 0) ∧
    do_buy_collectible 1 (fun _ _ _ => true) 0 1 0 exC2x
      = .err (.module .MaximumCollectiblesOwned) exC2x :=
  ⟨rfl, rfl, rfl⟩

/-- C2 witness: buying the unlisted id 0 (owner 0) as account 1 with spare
capacity fails `NotForSale` with the state unchanged. -/
theorem buy_failure_cases_witness :
    (exC2.collectibleMap 0 = some ⟨0, none, .Red, 0⟩ ∧
      (⟨0, none, .Red, 0⟩ : Collectible).price = none ∧
      (⟨0, none, .Red, 0⟩ : Collectible).owner ≠ 1 ∧
      0 ∈ exC2.ownerOf 0 ∧ (exC2.ownerOf 1).length < 2) ∧
    do_buy_collectible 2 (fun _ _ _ => true) 0 1 7 exC2
      = .err (.module .NotForSale) exC2 :=
  ⟨⟨rfl, rfl, by decide, by decide, by decide⟩,
    (buy_failure_cases 2 (fun _ _ _ => true) 0 1 7 exC2).2.2.1
      ⟨0, none, .Red, 0⟩ rfl rfl (by decide) (by decide) (by decide)⟩

/-- C4 (amended): when every id below the counter is present in the registry,
the aggregate recompute succeeds and stores the maximum of the previously
stored aggregate and the maximum over all currently-listed prices — the scan
is seeded from the stored `HighestPrice`, so it is not derived from the
currently-set prices alone. -/
theorem recompute_seeds_from_stored (s : PalletState)
    (hall : ∀ i, i < s.collectiblesCount →
      (s.collectibleMap i).isSome = true) :
    recomputeHighestPrice s
      = some { s with highestPrice := max s.highestPrice (listedMax s) } := by
  unfold recomputeHighestPrice
  rw [scanFrom_eq_max s.collectibleMap s.collectiblesCount 0 s.highestPrice
    (by intro j hj; simpa using hall j hj)]
  rfl

/-- C4 counterexample: with a single record listed at 50 but a stale stored
aggregate of 100, the recompute completes yet stores a value different from
the maximum over the currently-listed prices. -/
theorem recompute_seeds_counterexample :
    (recomputeHighestPrice exC4).map PalletState.highestPrice
      ≠ some (listedMax exC4) ∧
    (recomputeHighestPrice exC4).map PalletState.highestPrice = some 100 ∧
    listedMax exC4 = 50 :=
  ⟨by decide, rfl, rfl⟩

/-- C4 witness: on the concrete state with stored aggregate 100 and one
listed price 50 the recompute stores `max 100 (listedMax) = 100`. -/
theorem recompute_seeds_from_stored_witness :
    (∀ i, i < exC4.collectiblesCount → (exC4.collectibleMap i).isSome = true) ∧
    recomputeHighestPrice exC4
      = some { exC4 with
          highestPrice := max exC4.highestPrice (listedMax exC4) } :=
  ⟨fun i hi => by
      have h0 : i = 0 := by
        have : exC4.collectiblesCount = 1 := rfl
        omega
      subst h0
      rfl,
    recompute_seeds_from_stored exC4 (fun i hi => by
      have h0 : i = 0 := by
        have : exC4.collectiblesCount = 1 := rfl
        omega
      subst h0
      rfl)⟩

/-- C7: a successful `transfer` of id `unique_id` owned by `A` to `B` removes
the id from A's ownership collection, makes it appear exactly once in B's,
rewrites the record with owner `B` and price absent, and deposits a
`TransferSucceeded` event. -/
theorem transfer_success_spec (M A B unique_id : Nat) (c : Collectible)
    (s : PalletState)
    (hrec : s.collectibleMap unique_id = some c)
    (hown : c.owner = A)
    (hAB : A ≠ B)
    (hA1 : (s.ownerOf A).count unique_id ≤ 1)
    (hB0 : unique_id ∉ s.ownerOf B)
    (hok : (transfer M A B unique_id s).isOk = true) :
    unique_id ∉ (transfer M A B unique_id s).state.ownerOf A ∧
    ((transfer M A B unique_id s).state.ownerOf B).count unique_id = 1 ∧
    (transfer M A B unique_id s).state.collectibleMap unique_id
      = some { c with owner := B, price := none } ∧
    (transfer M A B unique_id s).state.events
      = s.events ++ [.TransferSucceeded A B unique_id] := by
  cases hres : transfer M A B unique_id s with
  | err e s2 => rw [hres] at hok; simp [OpResult.isOk] at hok
  | panicked => rw [hres] at hok; simp [OpResult.isOk] at hok
  | ok s' =>
    have hdt : do_transfer M unique_id B s = .ok s' := by
      unfold transfer at hres
      split at hres
      · cases hres
      · split at hres
        · exact hres
        · cases hres
    rcases do_transfer_ok_inv M unique_id B s s' hdt
      with ⟨c2, ind, hc2, hne2, hind, hlen, hs'⟩
    rw [hrec] at hc2
    injection hc2 with hcc
    subst hcc
    subst hs'
    rw [hown] at hind
    have hcnt := count_swapRemove unique_id (s.ownerOf A) ind hind
    have hswap0 : (swapRemove (s.ownerOf A) ind).count unique_id = 0 := by
      omega
    have hBne : B ≠ A := Ne.symm hAB
    refine ⟨?_, ?_, ?_, ?_⟩
    · show unique_id ∉ (ownedSet
          (ownedSet s.ownerOf B (s.ownerOf B ++ [unique_id]))
          c.owner (swapRemove (s.ownerOf c.owner) ind)) A
      rw [hown, ownedSet_same]
      exact List.count_eq_zero.mp hswap0
    · show ((ownedSet (ownedSet s.ownerOf B (s.ownerOf B ++ [unique_id]))
          c.owner (swapRemove (s.ownerOf c.owner) ind)) B).count unique_id = 1
      rw [hown, ownedSet_other _ _ _ _ hBne, ownedSet_same,
        List.count_append, List.count_eq_zero.mpr hB0]
      simp
    · show mapInsert s.collectibleMap unique_id
          { c with owner := B, price := none } unique_id
          = some { c with owner := B, price := none }
      rw [mapInsert_same]
    · show s.events ++ [.TransferSucceeded c.owner B unique_id]
          = s.events ++ [.TransferSucceeded A B unique_id]
      rw [hown]

/-- C7 witness: transferring id 0 from its owner 0 to account 1 succeeds and
yields exactly the claimed post-state observations. -/
theorem transfer_success_spec_witness :
    (exC7.collectibleMap 0 = some ⟨0, some 5, .Red, 0⟩ ∧
      (⟨0, some 5, .Red, 0⟩ : Collectible).owner = 0 ∧ (0 : Nat) ≠ 1 ∧
      (exC7.ownerOf 0).count 0 ≤ 1 ∧ 0 ∉ exC7.ownerOf 1 ∧
      (transfer 2 0 1 0 exC7).isOk = true) ∧
    (0 ∉ (transfer 2 0 1 0 exC7).state.ownerOf 0 ∧
      ((transfer 2 0 1 0 exC7).state.ownerOf 1).count 0 = 1 ∧
      (transfer 2 0 1 0 exC7).state.collectibleMap 0
        = some ⟨0, none, .Red, 1⟩ ∧
      (transfer 2 0 1 0 exC7).state.events
        = exC7.events ++ [.TransferSucceeded 0 1 0]) :=
  ⟨⟨rfl, rfl, by decide, by decide, by decide, by decide⟩,
    transfer_success_spec 2 0 1 0 ⟨0, some 5, .Red, 0⟩ exC7 rfl rfl
      (by decide) (by decide) (by decide) (by decide)⟩

/-- C1: a successful purchase of id `unique_id`, listed at price `p` by
`seller`, by a different account `buyer` paying `extra_fee` on top, invokes
the Currency exactly once to move exactly `p + extra_fee` from buyer to
seller, rewrites the record with owner `buyer` and price absent, and
deposits `Sold` followed by `TransferSucceeded`. -/
theorem buy_success_pays_and_transfers (M : Nat)
    (ledger : Nat → Nat → Nat → Bool)
    (unique_id buyer extra_fee seller p : Nat) (c : Collectible)
    (s : PalletState)
    (hrec : s.collectibleMap unique_id = some c)
    (hp : c.price = some p)
    (hown : c.owner = seller)
    (hne : buyer ≠ seller)
    (hok : (do_buy_collectible M ledger unique_id buyer extra_fee s).isOk
      = true) :
    (do_buy_collectible M ledger unique_id buyer extra_fee s).state.ledgerCalls
      = s.ledgerCalls ++ [(buyer, seller, p + extra_fee)] ∧
    (do_buy_collectible M ledger unique_id buyer extra_fee s).state.collectibleMap
      unique_id = some { c with owner := buyer, price := none } ∧
    (do_buy_collectible M ledger unique_id buyer extra_fee s).state.events
      = s.events ++ [.Sold seller buyer unique_id (p + extra_fee),
          .TransferSucceeded seller buyer unique_id] := by
  cases hres : do_buy_collectible M ledger unique_id buyer extra_fee s with
  | err e s2 => rw [hres] at hok; simp [OpResult.isOk] at hok
  | panicked => rw [hres] at hok; simp [OpResult.isOk] at hok
  | ok s' =>
    rcases do_buy_ok_inv M ledger unique_id buyer extra_fee s s' hres
      with ⟨c2, ind, price, hc2, hne2, hind, hlen, hprice2, hov, hled, hs'⟩
    rw [hrec] at hc2
    injection hc2 with hcc
    subst hcc
    rw [hp] at hprice2
    injection hprice2 with hpp
    subst hpp
    subst hs'
    refine ⟨?_, ?_, ?_⟩
    · show s.ledgerCalls ++ [(buyer, c.owner, extra_fee + p)]
          = s.ledgerCalls ++ [(buyer, seller, p + extra_fee)]
      rw [hown, Nat.add_comm]
    · show mapInsert s.collectibleMap unique_id
          { c with owner := buyer, price := none } unique_id
          = some { c with owner := buyer, price := none }
      rw [mapInsert_same]
    · show s.events ++ [.Sold c.owner buyer unique_id (extra_fee + p),
          .TransferSucceeded c.owner buyer unique_id]
          = s.events ++ [.Sold seller buyer unique_id (p + extra_fee),
              .TransferSucceeded seller buyer unique_id]
      rw [hown, Nat.add_comm]

/-- C1 witness: with id 0 listed at 100 by account 0, account 1 buying with
extra fee 10 triggers exactly one Currency invocation moving `100 + 10`. -/
theorem buy_success_pays_and_transfers_witness :
    (exC1.collectibleMap 0 = some ⟨0, some 100, .Red, 0⟩ ∧
      (⟨0, some 100, .Red, 0⟩ : Collectible).price = some 100 ∧
      (⟨0, some 100, .Red, 0⟩ : Collectible).owner = 0 ∧ (1 : Nat) ≠ 0 ∧
      (do_buy_collectible 2 (fun _ _ _ => true) 0 1 10 exC1).isOk = true) ∧
    (do_buy_collectible 2 (fun _ _ _ => true) 0 1 10 exC1).state.ledgerCalls
      = exC1.ledgerCalls ++ [(1, 0, 100 + 10)] :=
  ⟨⟨rfl, rfl, rfl, by decide, by decide⟩,
    (buy_success_pays_and_transfers 2 (fun _ _ _ => true) 0 1 10 0 100
      ⟨0, some 100, .Red, 0⟩ exC1 rfl rfl rfl (by decide) (by decide)).1⟩

theorem gen_unique_id_fst (s : PalletState) :
    (gen_unique_id s).1 = s.collectiblesCount := by
  unfold gen_unique_id
  split <;> rfl

theorem mint_ok_count (M owner unique_id : Nat) (color : Color)
    (s s' : PalletState) (h : mint M owner unique_id color s = .ok s') :
    s'.collectiblesCount = s.collectiblesCount + 1 := by
  unfold mint at h
  split at h
  · cases h
  · split at h
    · split at h
      · injection h with h1
        rw [← h1]
      · cases h
    · cases h

theorem mint_err_frame (M owner unique_id : Nat) (color : Color)
    (s : PalletState) (e : DispatchError) (s' : PalletState)
    (h : mint M owner unique_id color s = .err e s') : s' = s := by
  unfold mint at h
  split at h
  · injection h with h1 h2; exact h2.symm
  · split at h
    · split at h
      · cases h
      · injection h with h1 h2; exact h2.symm
    · injection h with h1 h2; exact h2.symm

theorem burn_ok_count (sender unique_id : Nat) (s s' : PalletState)
    (h : burn sender unique_id s = .ok s') :
    s'.collectiblesCount = s.collectiblesCount := by
  unfold burn at h
  split at h
  · cases h
  · split at h
    · injection h with h1
      rw [← h1]
    · cases h

theorem burn_err_frame (sender unique_id : Nat) (s : PalletState)
    (e : DispatchError) (s' : PalletState)
    (h : burn sender unique_id s = .err e s') : s' = s := by
  unfold burn at h
  split at h
  · injection h with h1 h2; exact h2.symm
  · split at h
    · cases h
    · injection h with h1 h2; exact h2.symm

theorem applyMB_count (M : Nat) (s : PalletState) (op : MBOp) :
    ((applyMB M s op).2 = none →
      (applyMB M s op).1.collectiblesCount = s.collectiblesCount) ∧
    (∀ n, (applyMB M s op).2 = some n →
      n = s.collectiblesCount ∧
      (applyMB M s op).1.collectiblesCount = s.collectiblesCount + 1) := by
  cases op with
  | createOp toAcct =>
    have hcc : create_collectible M toAcct s
        = mint M toAcct (gen_unique_id s).1 (gen_unique_id s).2 s := rfl
    cases hres : create_collectible M toAcct s with
    | ok s' =>
      have hmk := mint_ok_count M toAcct (gen_unique_id s).1
        (gen_unique_id s).2 s s' (hcc ▸ hres)
      constructor
      · intro h
        simp only [applyMB, hres] at h
        cases h
      · intro n h
        simp only [applyMB, hres, Option.some.injEq] at h
        simp only [applyMB, hres]
        constructor
        · rw [← h, gen_unique_id_fst]
        · exact hmk
    | err e s' =>
      have hfr := mint_err_frame M toAcct (gen_unique_id s).1
        (gen_unique_id s).2 s e s' (hcc ▸ hres)
      constructor
      · intro _
        simp only [applyMB, hres]
        rw [hfr]
      · intro n h
        simp only [applyMB, hres] at h
        cases h
    | panicked =>
      constructor
      · intro _
        simp only [applyMB, hres]
      · intro n h
        simp only [applyMB, hres] at h
        cases h
  | burnOp caller unique_id =>
    cases hres : burn caller unique_id s with
    | ok s' =>
      have hbk := burn_ok_count caller unique_id s s' hres
      constructor
      · intro _
        simp only [applyMB, hres]
        exact hbk
      · intro n h
        simp only [applyMB, hres] at h
        cases h
    | err e s' =>
      have hfr := burn_err_frame caller unique_id s e s' hres
      constructor
      · intro _
        simp only [applyMB, hres]
        rw [hfr]
      · intro n h
        simp only [applyMB, hres] at h
        cases h
    | panicked =>
      constructor
      · intro _
        simp only [applyMB, hres]
      · intro n h
        simp only [applyMB, hres] at h
        cases h

theorem runMB_ids (M : Nat) :
    ∀ (ops : List MBOp) (s : PalletState),
      s.collectiblesCount ≤ (runMB M s ops).1.collectiblesCount ∧
      (runMB M s ops).2
        = List.range' s.collectiblesCount
            ((runMB M s ops).1.collectiblesCount - s.collectiblesCount)
  | [], s => by simp [runMB]
  | op :: ops, s => by
    have hop := applyMB_count M s op
    have ih := runMB_ids M ops (applyMB M s op).1
    have hfst : (runMB M s (op :: ops)).1
        = (runMB M (applyMB M s op).1 ops).1 := rfl
    have hsnd : (runMB M s (op :: ops)).2
        = (applyMB M s op).2.toList
          ++ (runMB M (applyMB M s op).1 ops).2 := rfl
    cases h2 : (applyMB M s op).2 with
    | none =>
      have hc := hop.1 h2
      constructor
      · rw [hfst, ← hc]
        exact ih.1
      · rw [hfst, hsnd, h2, ih.2, hc]
        rfl
    | some n =>
      rcases hop.2 n h2 with ⟨hn, hc⟩
      have hfin := ih.1
      rw [hc] at hfin
      constructor
      · rw [hfst]
        omega
      · rw [hfst, hsnd, h2, ih.2, hc, hn]
        rw [show (runMB M (applyMB M s op).1 ops).1.collectiblesCount
              - s.collectiblesCount
            = ((runMB M (applyMB M s op).1 ops).1.collectiblesCount
              - (s.collectiblesCount + 1)) + 1 from by omega]
        rw [List.range'_succ]
        rfl

/-- C6: over every sequence of mint and burn operations from the genesis
state, the ids assigned by successive successful mints are exactly
`0, 1, 2, …` up to the final counter — strictly increasing from 0 and never
reused, burns included — and no single mint or burn operation ever decreases
the counter. -/
theorem minted_ids_strictly_increasing (M : Nat) (ops : List MBOp) :
    (runMB M initialState ops).2
      = List.range ((runMB M initialState ops).1.collectiblesCount) ∧
    List.Pairwise (· < ·) (runMB M initialState ops).2 ∧
    (∀ s op, s.collectiblesCount ≤ (applyMB M s op).1.collectiblesCount) := by
  have h := runMB_ids M ops initialState
  have hids : (runMB M initialState ops).2
      = List.range ((runMB M initialState ops).1.collectiblesCount) := by
    have h0 : initialState.collectiblesCount = 0 := rfl
    rw [h.2, h0, Nat.sub_zero, List.range_eq_range']
  refine ⟨hids, ?_, ?_⟩
  · rw [hids]
    exact List.sorted_lt_range _
  · intro s op
    have hop := applyMB_count M s op
    cases h2 : (applyMB M s op).2 with
    | none => rw [hop.1 h2]
    | some n =>
      rw [(hop.2 n h2).2]
      omega

end VulnToken
